import Mathlib

/-!
Shallow embedding of the encoding detection/conversion engine in
src/encoding.c (lite-xl-encoding), together with theorems settling the
spec claims about it.

Byte buffers are modelled as List Nat (each element a byte value; where
the C code casts to uint8_t we reduce modulo 256).  Lua-visible return
values are modelled with the LuaVal inductive: a Lua C function's pushed
results become a List LuaVal.  The two external stateful libraries are
modelled as oracles passed in explicitly:
  - uchardet: a function from the full input buffer to an optional
    charset name (none models a NULL / undetermined result);
  - iconv: an IconvModel whose conv field maps the remaining input to
    some full converted output, or none when iconv(3) returns (size_t)-1
    (an error such as EILSEQ).  A successful iconv(3) call consumes the
    whole remaining input, so one successful step empties inbytesleft.
-/

/-- A Lua value as pushed back to the caller: a textual string, a byte
buffer, a boolean, or nil. -/
inductive LuaVal where
  | str (s : String)
  | bytes (b : List Nat)
  | boolean (b : Bool)
  | nil
  deriving DecidableEq, Repr

/-- Entry of the BOM table: charset name, 4-byte signature array
(zero-padded, as a C unsigned char[4] initializer), significant length. -/
structure bom_t where
  charset : String
  bom : List Nat
  len : Nat
  deriving DecidableEq, Repr

/-- The static bom_list table from encoding.c (order matters: UTF-32 is
tested before UTF-16). -/
def bom_list : List bom_t := [
  ⟨"UTF-8",    [0xef, 0xbb, 0xbf, 0x00], 3⟩,
  ⟨"UTF-32LE", [0xff, 0xfe, 0x00, 0x00], 4⟩,
  ⟨"UTF-32BE", [0x00, 0x00, 0xfe, 0xff], 4⟩,
  ⟨"UTF-16LE", [0xff, 0xfe, 0x00, 0x00], 2⟩,
  ⟨"UTF-16BE", [0xfe, 0xff, 0x00, 0x00], 2⟩,
  ⟨"GB18030",  [0x84, 0x31, 0x95, 0x33], 4⟩,
  ⟨"UTF-7",    [0x2b, 0x2f, 0x76, 0x38], 4⟩,
  ⟨"UTF-7",    [0x2b, 0x2f, 0x76, 0x39], 4⟩,
  ⟨"UTF-7",    [0x2b, 0x2f, 0x76, 0x2b], 4⟩,
  ⟨"UTF-7",    [0x2b, 0x2f, 0x76, 0x2f], 4⟩
]

def UTF8_ACCEPT : Nat := 0
def UTF8_REJECT : Nat := 1

/-- The 400-entry utf8d table of the Hoehrmann UTF-8 DFA, transcribed
from encoding.c: entries 0..255 classify a byte, entries 256..399 are the
transition rows (states s0..s8, 16 columns per state). -/
def utf8d : List Nat := [
  -- 00..1f
  0,0,0,0,0,0,0,0,0,0,0,0,0,0,0,0,0,0,0,0,0,0,0,0,0,0,0,0,0,0,0,0,
  -- 20..3f
  0,0,0,0,0,0,0,0,0,0,0,0,0,0,0,0,0,0,0,0,0,0,0,0,0,0,0,0,0,0,0,0,
  -- 40..5f
  0,0,0,0,0,0,0,0,0,0,0,0,0,0,0,0,0,0,0,0,0,0,0,0,0,0,0,0,0,0,0,0,
  -- 60..7f
  0,0,0,0,0,0,0,0,0,0,0,0,0,0,0,0,0,0,0,0,0,0,0,0,0,0,0,0,0,0,0,0,
  -- 80..9f
  1,1,1,1,1,1,1,1,1,1,1,1,1,1,1,1,9,9,9,9,9,9,9,9,9,9,9,9,9,9,9,9,
  -- a0..bf
  7,7,7,7,7,7,7,7,7,7,7,7,7,7,7,7,7,7,7,7,7,7,7,7,7,7,7,7,7,7,7,7,
  -- c0..df
  8,8,2,2,2,2,2,2,2,2,2,2,2,2,2,2,2,2,2,2,2,2,2,2,2,2,2,2,2,2,2,2,
  -- e0..ef
  0xa,0x3,0x3,0x3,0x3,0x3,0x3,0x3,0x3,0x3,0x3,0x3,0x3,0x4,0x3,0x3,
  -- f0..ff
  0xb,0x6,0x6,0x6,0x5,0x8,0x8,0x8,0x8,0x8,0x8,0x8,0x8,0x8,0x8,0x8,
  -- s0..s0
  0x0,0x1,0x2,0x3,0x5,0x8,0x7,0x1,0x1,0x1,0x4,0x6,0x1,0x1,0x1,0x1,
  -- s1..s2
  1,1,1,1,1,1,1,1,1,1,1,1,1,1,1,1,1,0,1,1,1,1,1,0,1,0,1,1,1,1,1,1,
  -- s3..s4
  1,2,1,1,1,1,1,2,1,2,1,1,1,1,1,1,1,1,1,1,1,1,1,2,1,1,1,1,1,1,1,1,
  -- s5..s6
  1,2,1,1,1,1,1,1,1,2,1,1,1,1,1,1,1,1,1,1,1,1,1,3,1,3,1,1,1,1,1,1,
  -- s7..s8
  1,3,1,1,1,1,1,3,1,3,1,1,1,1,1,1,1,3,1,1,1,1,1,1,1,1,1,1,1,1,1,1
]

/-- One iteration of the utf8_validate loop body: classify the byte
(cast to uint8_t, hence mod 256) and look up the transition row. -/
def utf8_validate_step (state c : Nat) : Nat :=
  utf8d.getD (256 + state * 16 + utf8d.getD (c % 256) 0) 0

/-- utf8_validate from encoding.c: fold the DFA over the buffer,
breaking out of the loop as soon as the state reaches UTF8_REJECT, and
return the final state. -/
def utf8_validate (state : Nat) (str : List Nat) : Nat :=
  match str with
  | [] => state
  | c :: rest =>
    if utf8_validate_step state c = UTF8_REJECT then UTF8_REJECT
    else utf8_validate (utf8_validate_step state c) rest

/-- Inner loop of encoding_bom_from_charset: first entry whose charset
name strcmp-equals the argument; the C function returns the 4-byte bom
array pointer and writes the length, or ("", 0) when nothing matches. -/
def bom_from_charset_aux : List bom_t → String → List Nat × Nat
  | [], _ => ([], 0)
  | e :: rest, charset =>
    if e.charset == charset then (e.bom, e.len)
    else bom_from_charset_aux rest charset

/-- encoding_bom_from_charset from encoding.c. -/
def encoding_bom_from_charset (charset : String) : List Nat × Nat :=
  bom_from_charset_aux bom_list charset

/-- The per-entry test inside encoding_charset_from_bom: the input is at
least as long as the signature and every signature byte matches the
corresponding input byte. -/
def bomEntryMatches (bytes : List Nat) (e : bom_t) : Bool :=
  decide (e.len ≤ bytes.length) &&
    (List.range e.len).all (fun b => bytes.getD b 0 == e.bom.getD b 0)

/-- Outer loop of encoding_charset_from_bom: first matching entry wins. -/
def charset_from_bom_aux : List bom_t → List Nat → Option (String × Nat)
  | [], _ => none
  | e :: rest, bytes =>
    if bomEntryMatches bytes e then some (e.charset, e.len)
    else charset_from_bom_aux rest bytes

/-- encoding_charset_from_bom from encoding.c: the matched charset and
its bom length, or none when no signature matches. -/
def encoding_charset_from_bom (bytes : List Nat) : Option (String × Nat) :=
  charset_from_bom_aux bom_list bytes

/-- f_get_charset_bom from encoding.c (Lua encoding.bom): pushes the
first len bytes of the matched bom array. -/
def f_get_charset_bom (charset : String) : List Nat :=
  (encoding_bom_from_charset charset).1.take (encoding_bom_from_charset charset).2

/-- f_detect_string from encoding.c (Lua encoding.detect), with the
uchardet library as an explicit oracle.  Empty input returns "UTF-8"
immediately.  Otherwise the source computes encoding_charset_from_bom
but leaves the result unused (bound, never read), feeds the whole string
to uchardet, and returns uchardet's charset, or nil plus an error
message when uchardet yields none. -/
def f_detect_string (uchardet : List Nat → Option String) (string : List Nat) :
    List LuaVal :=
  let string_len := string.length
  if string_len = 0 then [LuaVal.str "UTF-8"]
  else
    let _bom_charset := encoding_charset_from_bom string
    match uchardet string with
    | some charset => [LuaVal.str charset]
    | none => [LuaVal.nil, LuaVal.str "could not detect the file encoding"]

/-- The options table of f_convert: each field is some b when the table
holds a boolean under that key, none otherwise (the source only reads a
field that lua_isboolean accepts). -/
structure ConvertOptions where
  handle_to_bom : Option Bool
  handle_from_bom : Option Bool
  strict : Option Bool
  deriving DecidableEq, Repr

/-- Model of the iconv library: whether iconv_open succeeds for a
(tocharset, fromcharset) pair, the strerror text used on open failure,
and the conversion step.  conv r = some out models a call of iconv(3)
that converts the whole remaining input r to out and returns a
non-negative count; conv r = none models a call returning (size_t)-1. -/
structure IconvModel where
  openOk : String → String → Bool
  openErr : String
  conv : List Nat → Option (List Nat)

/-- Observable outcome of one f_convert call: the Lua values pushed,
whether iconv_open created a session, and how many times iconv_close was
called before returning. -/
structure ConvertOutcome where
  values : List LuaVal
  opened : Bool
  closes : Nat
  deriving DecidableEq, Repr

/-- The while loop of f_convert: while input bytes remain, call iconv
against the 4096-byte buffer; on (size_t)-1 the loop is abandoned with
an error (none); otherwise the produced chunk is appended and — since a
successful iconv(3) call consumed all of inbytesleft — the next loop
test exits. -/
def convert_loop (conv : List Nat → Option (List Nat)) :
    List Nat → List Nat → Option (List Nat)
  | [], acc => some acc
  | c :: rest, acc =>
    match conv (c :: rest) with
    | none => none
    | some out => some (acc ++ out)

/-- f_convert from encoding.c (Lua encoding.convert).  The options
handle_to_bom, handle_from_bom and strict are parsed from the table and
then never used, exactly as in the source.  On iconv_open failure it
returns nil plus the errno string with no session.  On an iconv error it
closes the session once and returns nil plus "illegal multibyte
sequence" regardless of strict.  On success it returns the accumulated
buffer without calling iconv_close. -/
def f_convert (m : IconvModel) (tocharset fromcharset : String)
    (text : List Nat) (opts : Option ConvertOptions) : ConvertOutcome :=
  let _strict := match opts with
    | some t => t.strict.getD false
    | none => false
  let _handle_to_bom := match opts with
    | some t => t.handle_to_bom.getD false
    | none => false
  let _handle_from_bom := match opts with
    | some t => t.handle_from_bom.getD false
    | none => false
  if m.openOk tocharset fromcharset = false then
    ⟨[LuaVal.nil, LuaVal.str m.openErr], false, 0⟩
  else
    match convert_loop m.conv text [] with
    | none => ⟨[LuaVal.nil, LuaVal.str "illegal multibyte sequence"], true, 1⟩
    | some out => ⟨[LuaVal.bytes out], true, 0⟩

/-- State of the transition rule exactly as the claim words it: either
some number of continuation bytes still pending (pend 0 meaning none)
or rejection of the whole input. -/
inductive NibbleState where
  | pend (n : Nat)
  | reject
  deriving DecidableEq, Repr

/-- Formalisation of claim C4's transition rule, from the spec's words
(not from the source): top nibble 0xF starts 3 continuations, 0xE starts
2, 0xD or 0xC starts 1; any other byte with none pending is a standalone
byte; with continuations pending the byte is accepted iff its two high
bits are 10, otherwise the input is rejected. -/
def nibbleStep (s : NibbleState) (c : Nat) : NibbleState :=
  match s with
  | NibbleState.reject => NibbleState.reject
  | NibbleState.pend (k + 1) =>
    if (c % 256) / 64 = 2 then NibbleState.pend k else NibbleState.reject
  | NibbleState.pend 0 =>
    if (c % 256) / 16 = 0xf then NibbleState.pend 3
    else if (c % 256) / 16 = 0xe then NibbleState.pend 2
    else if (c % 256) / 16 = 0xd ∨ (c % 256) / 16 = 0xc then NibbleState.pend 1
    else NibbleState.pend 0

/-- Run of the claim's transition rule over a buffer, short-circuiting
on rejection. -/
def nibbleRun (s : NibbleState) (str : List Nat) : NibbleState :=
  match str with
  | [] => s
  | c :: rest =>
    match nibbleStep s c with
    | NibbleState.reject => NibbleState.reject
    | s' => nibbleRun s' rest

/-- The actual transition rule implemented by the utf8d tables, written
out as explicit byte-range tests (the amended form of claim C4).
States: 0 accept, 1 reject, 2 one continuation pending, 3 two pending
(unrestricted), 4 two pending after 0xE0, 5 two pending after 0xED,
6 three pending after 0xF0, 7 three pending after 0xF1..0xF3, 8 three
pending after 0xF4. -/
def utf8_spec_step (state c0 : Nat) : Nat :=
  let c := c0 % 256
  match state with
  | 0 =>
    if c ≤ 0x7f then 0
    else if 0xc2 ≤ c ∧ c ≤ 0xdf then 2
    else if c = 0xe0 then 4
    else if c = 0xed then 5
    else if 0xe1 ≤ c ∧ c ≤ 0xef then 3
    else if c = 0xf0 then 6
    else if 0xf1 ≤ c ∧ c ≤ 0xf3 then 7
    else if c = 0xf4 then 8
    else 1
  | 2 => if 0x80 ≤ c ∧ c ≤ 0xbf then 0 else 1
  | 3 => if 0x80 ≤ c ∧ c ≤ 0xbf then 2 else 1
  | 4 => if 0xa0 ≤ c ∧ c ≤ 0xbf then 2 else 1
  | 5 => if 0x80 ≤ c ∧ c ≤ 0x9f then 2 else 1
  | 6 => if 0x90 ≤ c ∧ c ≤ 0xbf then 3 else 1
  | 7 => if 0x80 ≤ c ∧ c ≤ 0xbf then 3 else 1
  | 8 => if 0x80 ≤ c ∧ c ≤ 0x8f then 3 else 1
  | _ => 1

/-- Run of the explicit byte-range machine, with the same short-circuit
shape as utf8_validate. -/
def utf8_spec_run (state : Nat) (str : List Nat) : Nat :=
  match str with
  | [] => state
  | c :: rest =>
    if utf8_spec_step state c = UTF8_REJECT then UTF8_REJECT
    else utf8_spec_run (utf8_spec_step state c) rest

set_option maxHeartbeats 4000000 in
set_option maxRecDepth 100000 in
/-- The two step functions agree on all DFA states 0..8 and all byte
values, checked exhaustively against the utf8d tables. -/
theorem utf8_step_agrees_lt : ∀ s, s < 9 → ∀ b, b < 256 →
    utf8_validate_step s b = utf8_spec_step s b := by decide

set_option maxHeartbeats 1000000 in
set_option maxRecDepth 100000 in
/-- The explicit machine never leaves the state space 0..8. -/
theorem utf8_spec_step_lt : ∀ s, s < 9 → ∀ b, b < 256 →
    utf8_spec_step s b < 9 := by decide

/-- The table step only depends on the byte modulo 256 (the uint8_t cast). -/
theorem utf8_validate_step_mod (s c : Nat) :
    utf8_validate_step s (c % 256) = utf8_validate_step s c := by
  unfold utf8_validate_step
  rw [Nat.mod_mod_of_dvd c (dvd_refl 256)]

/-- The explicit range machine also only depends on the byte modulo 256. -/
theorem utf8_spec_step_mod (s c : Nat) :
    utf8_spec_step s (c % 256) = utf8_spec_step s c := by
  simp only [utf8_spec_step, Nat.mod_mod_of_dvd c (dvd_refl 256)]

/-- Step agreement for an arbitrary byte argument. -/
theorem utf8_step_agrees (s : Nat) (hs : s < 9) (c : Nat) :
    utf8_validate_step s c = utf8_spec_step s c := by
  rw [← utf8_validate_step_mod, ← utf8_spec_step_mod]
  exact utf8_step_agrees_lt s hs (c % 256) (Nat.mod_lt _ (by norm_num))

/-- State-space closure for an arbitrary byte argument. -/
theorem utf8_spec_step_lt_all (s : Nat) (hs : s < 9) (c : Nat) :
    utf8_spec_step s c < 9 := by
  rw [← utf8_spec_step_mod]
  exact utf8_spec_step_lt s hs (c % 256) (Nat.mod_lt _ (by norm_num))

/-- Run equivalence of the table fold and the explicit range machine,
from any state in 0..8. -/
theorem utf8_validate_eq_spec_run (str : List Nat) :
    ∀ s, s < 9 → utf8_validate s str = utf8_spec_run s str := by
  induction str with
  | nil => intro s _; rfl
  | cons c rest ih =>
    intro s hs
    simp only [utf8_validate, utf8_spec_run, utf8_step_agrees s hs c]
    by_cases h : utf8_spec_step s c = UTF8_REJECT
    · rw [if_pos h, if_pos h]
    · rw [if_neg h, if_neg h, ih _ (utf8_spec_step_lt_all s hs c)]

/-- The BOM matching loop is first-match search over the table. -/
theorem charset_from_bom_aux_eq_find (entries : List bom_t) (bytes : List Nat) :
    charset_from_bom_aux entries bytes
      = (entries.find? (fun e => bomEntryMatches bytes e)).map
          (fun e => (e.charset, e.len)) := by
  induction entries with
  | nil => rfl
  | cons e rest ih =>
    cases h : bomEntryMatches bytes e with
    | true => simp [charset_from_bom_aux, List.find?_cons, h]
    | false => simp [charset_from_bom_aux, List.find?_cons, h, ih]

/-- The name lookup loop is first-match search over the table. -/
theorem bom_from_charset_aux_eq_find (entries : List bom_t) (charset : String) :
    bom_from_charset_aux entries charset
      = ((entries.find? (fun e => e.charset == charset)).map
          (fun e => (e.bom, e.len))).getD ([], 0) := by
  induction entries with
  | nil => rfl
  | cons e rest ih =>
    cases h : e.charset == charset with
    | true => simp [bom_from_charset_aux, List.find?_cons, h]
    | false => simp [bom_from_charset_aux, List.find?_cons, h, ih]

/-- A charset name matching no table entry yields the empty bom. -/
theorem bom_from_charset_aux_absent (entries : List bom_t) (charset : String) :
    (∀ e, e ∈ entries → e.charset ≠ charset) →
      bom_from_charset_aux entries charset = ([], 0) := by
  induction entries with
  | nil => intro _; rfl
  | cons e rest ih =>
    intro h
    have he : (e.charset == charset) = false :=
      beq_eq_false_iff_ne.mpr (h e (List.mem_cons_self e rest))
    simp [bom_from_charset_aux, he,
      ih (fun x hx => h x (List.mem_cons_of_mem e hx))]

/-- Concrete iconv model whose every conversion call reports an error,
as iconv does on an illegal input sequence (EILSEQ). -/
def iconvAlwaysIllegal : IconvModel :=
  ⟨fun _ _ => true, "invalid argument", fun _ => none⟩

/-- Concrete iconv model that opens any pair and copies the input
through unchanged (e.g. a UTF-8 to UTF-8 conversion). -/
def iconvIdentity : IconvModel :=
  ⟨fun _ _ => true, "invalid argument", fun remaining => some remaining⟩

/-- C1: on input EF BB BF 41, whose prefix is the UTF-8 signature of the
BOM table, f_detect_string returns the statistical detector's guess with
no origin flag, even though encoding_charset_from_bom matches UTF-8: the
BOM match result is computed and then discarded. -/
theorem detect_ignores_bom_match :
    f_detect_string (fun _ => some "WINDOWS-1252") [0xef, 0xbb, 0xbf, 0x41]
        = [LuaVal.str "WINDOWS-1252"]
    ∧ (encoding_charset_from_bom [0xef, 0xbb, 0xbf, 0x41]).map Prod.fst
        = some "UTF-8" :=
  ⟨rfl, rfl⟩

/-- C2: with strict=false, a conversion on which the session reports an
encoding error still fails with nil and "illegal multibyte sequence":
the parsed strict option is never consulted and no input byte is
skipped. -/
theorem lenient_convert_still_errors :
    f_convert iconvAlwaysIllegal "ASCII" "UTF-8" [0xc3, 0xa9]
        (some ⟨none, none, some false⟩)
      = ⟨[LuaVal.nil, LuaVal.str "illegal multibyte sequence"], true, 1⟩ :=
  rfl

set_option maxRecDepth 100000 in
/-- C3: the byte 41 is structurally valid UTF-8 and has no BOM prefix,
yet f_detect_string returns whatever the statistical detector guesses
(here "ASCII"): utf8_validate is never invoked by the detection path. -/
theorem detect_ignores_utf8_validator :
    f_detect_string (fun _ => some "ASCII") [0x41] = [LuaVal.str "ASCII"]
    ∧ utf8_validate UTF8_ACCEPT [0x41] ≠ UTF8_REJECT
    ∧ encoding_charset_from_bom [0x41] = none :=
  ⟨rfl, by decide, rfl⟩

set_option maxRecDepth 100000 in
/-- C4 counterexample: the validator rejects C0 80 and a standalone 80,
both of which the claim's nibble rule accepts (C0 has top nibble 0xC and
80 has its two high bits equal to 10). -/
theorem validator_differs_from_nibble_rule :
    utf8_validate UTF8_ACCEPT [0xc0, 0x80] = UTF8_REJECT
    ∧ nibbleRun (NibbleState.pend 0) [0xc0, 0x80] = NibbleState.pend 0
    ∧ utf8_validate UTF8_ACCEPT [0x80] = UTF8_REJECT
    ∧ nibbleRun (NibbleState.pend 0) [0x80] = NibbleState.pend 0 := by
  refine ⟨by decide, by decide, by decide, by decide⟩

/-- C4 amended: the validator is the table-driven DFA whose transition
rule, written as explicit byte ranges, is utf8_spec_step (lead bytes
C2..DF start one continuation, E0..EF two, F0..F4 three, with restricted
first-continuation ranges after E0, ED, F0 and F4; bytes 80..BF with
nothing pending and C0, C1, F5..FF always reject immediately; a
non-permitted byte while continuations are pending rejects the whole
input immediately, short-circuiting the scan). -/
theorem utf8_validate_is_range_dfa (str : List Nat) :
    utf8_validate UTF8_ACCEPT str = utf8_spec_run UTF8_ACCEPT str :=
  utf8_validate_eq_spec_run str 0 (by norm_num)

/-- C5: a successful conversion returns with the session opened and
iconv_close called zero times: the success exit path never closes the
conversion session. -/
theorem convert_success_path_never_closes :
    f_convert iconvIdentity "UTF-8" "UTF-8" [0x78] none
      = ⟨[LuaVal.bytes [0x78]], true, 0⟩ :=
  rfl

/-- C6 counterexample: bom("UTF-16LE") is FF FE, yet a buffer starting
with exactly those bytes (FF FE 00 00) is matched as UTF-32LE, so the
round trip fails for a buffer that merely starts with the signature. -/
theorem utf16le_prefix_matches_utf32le :
    f_get_charset_bom "UTF-16LE" = [0xff, 0xfe]
    ∧ List.isPrefixOf [0xff, 0xfe] [0xff, 0xfe, 0x00, 0x00] = true
    ∧ (encoding_charset_from_bom [0xff, 0xfe, 0x00, 0x00]).map Prod.fst
        = some "UTF-32LE" :=
  ⟨rfl, rfl, rfl⟩

/-- C6 amended: for every charset present in the table, matching the
exact bytes bom(charset) reproduces the charset; and for every charset
name absent from the table, bom returns the empty sequence rather than
an error. -/
theorem bom_round_trip_exact :
    (∀ e, e ∈ bom_list →
      (encoding_charset_from_bom (f_get_charset_bom e.charset)).map Prod.fst
        = some e.charset)
    ∧ (∀ charset, (∀ e, e ∈ bom_list → e.charset ≠ charset) →
      f_get_charset_bom charset = []) := by
  constructor
  · decide
  · intro charset h
    have h2 : encoding_bom_from_charset charset = ([], 0) :=
      bom_from_charset_aux_absent bom_list charset h
    simp [f_get_charset_bom, h2]

/-- Witness for the amended C6 theorem at the UTF-16LE entry and at the
absent charset name LATIN1. -/
theorem bom_round_trip_exact_w :
    (encoding_charset_from_bom (f_get_charset_bom "UTF-16LE")).map Prod.fst
        = some "UTF-16LE"
    ∧ f_get_charset_bom "LATIN1" = [] :=
  ⟨bom_round_trip_exact.1 (bom_t.mk "UTF-16LE" [0xff, 0xfe, 0x00, 0x00] 2)
      (by decide),
   bom_round_trip_exact.2 "LATIN1" (by decide)⟩

/-- C7: the BOM matcher is first-match search in table-declared order,
and in particular FF FE 00 00 matches UTF-32LE even though the UTF-16LE
entry, which appears later in the table, also matches that input. -/
theorem bom_match_first_entry_wins :
    (∀ bytes, encoding_charset_from_bom bytes
        = (bom_list.find? (fun e => bomEntryMatches bytes e)).map
            (fun e => (e.charset, e.len)))
    ∧ encoding_charset_from_bom [0xff, 0xfe, 0x00, 0x00] = some ("UTF-32LE", 4)
    ∧ bomEntryMatches [0xff, 0xfe, 0x00, 0x00]
        (bom_t.mk "UTF-16LE" [0xff, 0xfe, 0x00, 0x00] 2) = true :=
  ⟨fun bytes => charset_from_bom_aux_eq_find bom_list bytes, rfl, rfl⟩

/-- C8 counterexample: on empty input f_detect_string pushes the single
value "UTF-8"; it does not push the pair ("UTF-8", false). -/
theorem empty_detect_returns_no_flag :
    f_detect_string (fun _ => none) []
      ≠ [LuaVal.str "UTF-8", LuaVal.boolean false] := by
  decide

/-- C8 amended: detect on the empty byte sequence returns the single
value "UTF-8" (no origin flag), for every behaviour of the statistical
detector, hence without invoking the BOM matcher, the validator or the
statistical detector. -/
theorem empty_detect_utf8 (uchardet : List Nat → Option String) :
    f_detect_string uchardet [] = [LuaVal.str "UTF-8"] :=
  rfl

/-- C9: bom("UTF-7") is the signature of the first of the four UTF-7
table entries, 2B 2F 76 38, and in general the name lookup returns the
earliest entry in table-declared order. -/
theorem bom_lookup_first_entry :
    f_get_charset_bom "UTF-7" = [0x2b, 0x2f, 0x76, 0x38]
    ∧ (∀ charset, encoding_bom_from_charset charset
        = ((bom_list.find? (fun e => e.charset == charset)).map
            (fun e => (e.bom, e.len))).getD ([], 0)) :=
  ⟨rfl, fun charset => bom_from_charset_aux_eq_find bom_list charset⟩

/-- C10: the outcome of f_convert does not depend on the handle_to_bom
and handle_from_bom option fields: two calls differing only in those two
values agree for every iconv behaviour, charset pair, input text and
strict setting. -/
theorem convert_ignores_bom_options (m : IconvModel)
    (tocharset fromcharset : String) (text : List Nat)
    (strict h1 h2 h1' h2' : Option Bool) :
    f_convert m tocharset fromcharset text (some ⟨h1, h2, strict⟩)
      = f_convert m tocharset fromcharset text (some ⟨h1', h2', strict⟩) :=
  rfl
